import Mathlib

/-
Verification of the fl_bench federated-learning orchestration core
(files src/fl_bench/__init__.py, channel.py, server.py) against its
natural-language specification.  The Python code is shallowly embedded:
mutable state is threaded explicitly, Python exceptions become the
Except monad with the Err error type, tensors become rationals, and
state dicts become association lists from string keys to rationals.
-/

namespace FlBench

/-- Python exception kinds that the embedded code can raise.  Each
constructor corresponds to a concrete exception class raised by the
source: ValueError at channel.py line 91, IndexError from list.pop on an
empty list and from indexing an empty list, TypeError from unpacking a
non-pair action payload, KeyError from a missing state-dict key,
ZeroDivisionError from dividing by a zero client count, RuntimeError
from torch load_state_dict with mismatched keys, and observerError for
an arbitrary exception raised inside an attached observer callback. -/
inductive Err where
  | messageNotFound : Err
  | indexError : Err
  | typeError : Err
  | keyError : Err
  | zeroDivisionError : Err
  | runtimeError : Err
  | observerError : Err
deriving DecidableEq, Repr

/-- Boolean substring test on character lists: needle occurs contiguously
inside hay.  Mirrors the Python expression needle in hay on strings. -/
def listContainsSub (hay needle : List Char) : Bool :=
  (List.range (hay.length + 1)).any (fun i => ((hay.drop i).take needle.length) == needle)

/-- Boolean substring test on strings, mirroring Python needle in hay. -/
def strContains (hay needle : String) : Bool :=
  listContainsSub hay.data needle.data

/-- A model state dict: ordered association list from parameter keys to
tensor values, with tensors abstracted to single rational values. -/
abbrev StateDict : Type := List (String × ℚ)

/-- The ordered list of parameter keys of a state dict
(Python dict.keys()). -/
def sdKeys (sd : StateDict) : List String := sd.map Prod.fst

/-- Payload of a Message: an opaque object, a model state dict, or an
action request carrying an operation name and keyword arguments
(the Python tuple (method, kwargs) sent with msg_type __action__). -/
inductive Payload where
  | obj : ℕ → Payload
  | modelP : StateDict → Payload
  | action : String → List (String × ℕ) → Payload
deriving DecidableEq, Repr

/-- The Message class of fl_bench/__init__.py lines 185-213: a payload,
a type tag and an optional sender.  Parties (server and clients) are
identified by natural-number ids. -/
structure Message where
  payload : Payload
  msg_type : String
  sender : Option ℕ
deriving DecidableEq, Repr

/-- The Channel state of fl_bench/channel.py.  The field buffer embeds
the defaultdict(list) mapping each receiver mailbox to its pending
messages in arrival order.  The field actions is the trace of
synchronous operation invocations performed by _send_action (channel.py
lines 24-28): each entry records the receiver, the operation and the
keyword arguments of one invocation, in invocation order. -/
structure Channel where
  buffer : List (ℕ × List Message)
  actions : List (ℕ × String × List (String × ℕ))
deriving DecidableEq, Repr

/-- A channel with empty buffers and no performed actions, as built by
Channel.__init__. -/
def emptyChannel : Channel := ⟨[], []⟩

/-- Read the mailbox of a receiver; an absent key yields the empty list,
mirroring defaultdict(list). -/
def bufferGet (b : List (ℕ × List Message)) (mbox : ℕ) : List Message :=
  (b.lookup mbox).getD []

/-- Write the mailbox of a receiver, replacing an existing entry or
appending a new one. -/
def bufferSet (b : List (ℕ × List Message)) (mbox : ℕ) (msgs : List Message) :
    List (ℕ × List Message) :=
  match b with
  | [] => [(mbox, msgs)]
  | (k, v) :: rest =>
      if k = mbox then (k, msgs) :: rest else (k, v) :: bufferSet rest mbox msgs

/-- The matching test of Channel.receive (channel.py lines 84-86): a
message matches when the sender filter is absent or equal to the message
sender, and the type filter is absent or equal to the message type. -/
def matchMsg (m : Message) (sender : Option ℕ) (mt : Option String) : Bool :=
  (match sender with
   | none => true
   | some s => m.sender == some s)
  &&
  (match mt with
   | none => true
   | some t => m.msg_type == t)

/-- Scan a mailbox in arrival order and pop the first message matching
the filters, returning it with the remaining mailbox; none when no
message matches.  Embeds the loop at channel.py lines 84-89. -/
def scanPop (msgs : List Message) (sender : Option ℕ) (mt : Option String) :
    Option (Message × List Message) :=
  match msgs with
  | [] => none
  | m :: rest =>
      if matchMsg m sender mt then some (m, rest)
      else
        match scanPop rest sender mt with
        | some (found, rest2) => some (found, m :: rest2)
        | none => none

/-- Channel.send (channel.py lines 31-62).  An action-typed message has
its payload unpacked as (method, kwargs) and the operation is invoked
synchronously, recorded on the actions trace; nothing is buffered.  A
payload of any other shape fails to unpack (TypeError).  Any other
message is appended to the receiver mailbox. -/
def send (ch : Channel) (m : Message) (mbox : ℕ) : Except Err Channel :=
  if m.msg_type = "__action__" then
    match m.payload with
    | Payload.action op kwargs =>
        Except.ok { ch with actions := ch.actions ++ [(mbox, op, kwargs)] }
    | _ => Except.error Err.typeError
  else
    Except.ok { ch with buffer := bufferSet ch.buffer mbox (bufferGet ch.buffer mbox ++ [m]) }

/-- Channel.receive (channel.py lines 64-91).  With both filters absent
it pops the most recently appended message (list.pop pops the last
element; on an empty mailbox this raises IndexError).  Otherwise it pops
the first message in arrival order matching the filters and raises the
message-not-found ValueError when none matches.  The observer
notification performed on success is modeled separately by
notify_message_received over the observer list. -/
def receive (ch : Channel) (mbox : ℕ) (sender : Option ℕ) (mt : Option String) :
    Except Err (Message × Channel) :=
  match sender, mt with
  | none, none =>
      match (bufferGet ch.buffer mbox).getLast? with
      | none => Except.error Err.indexError
      | some m =>
          Except.ok (m, { ch with buffer := bufferSet ch.buffer mbox (bufferGet ch.buffer mbox).dropLast })
  | _, _ =>
      match scanPop (bufferGet ch.buffer mbox) sender mt with
      | some (m, rest) => Except.ok (m, { ch with buffer := bufferSet ch.buffer mbox rest })
      | none => Except.error Err.messageNotFound

/-- Channel.broadcast (channel.py lines 93-101): send the same message
to each receiver in the given order. -/
def broadcast (ch : Channel) (m : Message) (tos : List ℕ) : Except Err Channel :=
  tos.foldlM (fun c r => send c m r) ch

/-- The substring that tags batch-normalization counter keys in
Server.aggregate (server.py line 184). -/
def numBatchesTracked : String := "num_batches_tracked"

/-- Strict torch load_state_dict as called at server.py line 192: it
fails with a RuntimeError when the loaded dict is missing a model key or
holds an unexpected key, and otherwise replaces the model state. -/
def load_state_dict (model sd : StateDict) : Except Err StateDict :=
  if ((sdKeys model).all (fun k => (sdKeys sd).contains k)
      && (sdKeys sd).all (fun k => (sdKeys model).contains k)) then
    Except.ok sd
  else
    Except.error Err.runtimeError

/-- Server._get_client_weights (server.py lines 142-167) over the cached
example counts of the eligible clients.  When weighted is set each
weight is the client count over the total (ZeroDivisionError when the
total is zero); otherwise every client gets one over the number of
eligible clients (ZeroDivisionError when that number is zero). -/
def get_client_weights (nExamples : List ℕ) (weighted : Bool) : Except Err (List ℚ) :=
  if weighted then
    if nExamples.sum = 0 then Except.error Err.zeroDivisionError
    else Except.ok (nExamples.map (fun k : ℕ => (k : ℚ) / (nExamples.sum : ℚ)))
  else
    if nExamples.length = 0 then Except.error Err.zeroDivisionError
    else Except.ok (List.replicate nExamples.length (1 / (nExamples.length : ℚ)))

/-- One step of the inner loop of Server.aggregate (server.py lines
187-191): add one weighted client value for a key into the accumulator,
which is absent before the first contribution.  A client state dict
missing the key raises KeyError, as Python subscripting does. -/
def aggApplyClient (acc : Option ℚ) (w : ℚ) (sd : StateDict) (k : String) :
    Except Err (Option ℚ) :=
  match sd.lookup k with
  | none => Except.error Err.keyError
  | some v =>
      match acc with
      | none => Except.ok (some (w * v))
      | some a => Except.ok (some (a + w * v))

/-- The accumulated value of one key over all weighted clients, in
client order; none when there is no client. -/
def aggKey (clients : List (ℚ × StateDict)) (k : String) : Except Err (Option ℚ) :=
  clients.foldlM (fun acc wc => aggApplyClient acc wc.1 wc.2 k) none

/-- The outer loop of Server.aggregate (server.py lines 183-191):
build avg_model_sd over the model keys in order.  A key containing
num_batches_tracked is skipped with continue (the carry-over from the
first client is commented out in the source), so no entry is written for
it; any other key gets the weighted sum over the clients. -/
def buildAvgModel (modelKeys : List String) (clients_sd : List StateDict)
    (weights : List ℚ) : Except Err StateDict :=
  modelKeys.foldlM
    (fun (avg : StateDict) k =>
      if strContains k numBatchesTracked then pure avg
      else do
        match (← aggKey (weights.zip clients_sd) k) with
        | some v => pure (avg ++ [(k, v)])
        | none => pure avg)
    ([] : StateDict)

/-- Server.aggregate (server.py lines 169-192) on the already collected
client state dicts: compute the client weights from the cached example
counts, build the averaged dict over the model keys, and load it into
the global model with strict load_state_dict.  The clients_sd argument
stands for the state dicts pulled from the channel by
_get_client_models, one per eligible client in roster order. -/
def aggregate (model : StateDict) (clients_sd : List StateDict)
    (nExamples : List ℕ) (weighted : Bool) : Except Err StateDict := do
  let weights ← get_client_weights nExamples weighted
  let avg ← buildAvgModel (sdKeys model) clients_sd weights
  load_state_dict model avg

/-- The numpy legacy random generator state, abstracted as an infinite
stream of raw draws together with a position: consuming one draw reads
the stream at the position and advances it.  Equality of two states with
the same stream and position models unchanged numpy random state. -/
structure Rng where
  stream : ℕ → ℕ
  pos : ℕ

/-- Consume one raw draw and reduce it to an index below the bound. -/
def drawNat (r : Rng) (bound : ℕ) : ℕ × Rng :=
  (r.stream r.pos % bound, ⟨r.stream, r.pos + 1⟩)

/-- numpy random.choice(roster, n) with the default replace=True: n
independent uniform draws over the roster indices, each consuming one
raw draw, with replacement.  The dflt element is only reached on an
empty roster. -/
def npRandomChoice {α : Type} (roster : List α) (dflt : α) (n : ℕ) (r : Rng) :
    List α × Rng :=
  match n with
  | 0 => ([], r)
  | Nat.succ m =>
      let p := drawNat r roster.length
      let rest := npRandomChoice roster dflt m p.2
      (roster.getD p.1 dflt :: rest.1, rest.2)

/-- Server.get_eligible_clients (server.py lines 121-133): with
eligible_perc equal to one the whole roster is returned and the random
state is untouched; otherwise n equals the floor of n_clients times
eligible_perc (Python int truncation, which is the floor for the
non-negative products in scope) and the result is a size-n
numpy random.choice over the roster. -/
def get_eligible_clients (clients : List ℕ) (dflt : ℕ) (perc : ℚ) (r : Rng) :
    List ℕ × Rng :=
  if perc = 1 then (clients, r)
  else npRandomChoice clients dflt (Rat.floor ((clients.length : ℚ) * perc)).toNat r

/-- The argument accepted by ObserverSubject.attach (fl_bench/__init__.py
lines 49-58): Python None, a single observer, or an iterable of
observers.  Observers are identified by natural-number ids. -/
inductive AttachArg where
  | noneArg : AttachArg
  | single : ℕ → AttachArg
  | many : List ℕ → AttachArg

/-- The loop of ObserverSubject.attach: append each observer that is not
already registered, keeping registration order. -/
def attachAll (observers : List ℕ) (os : List ℕ) : List ℕ :=
  os.foldl (fun acc o => if acc.contains o then acc else acc ++ [o]) observers

/-- ObserverSubject.attach (fl_bench/__init__.py lines 49-58): None
returns immediately, a non-iterable observer is wrapped in a singleton
list, and each listed observer is appended only when absent. -/
def attach (observers : List ℕ) (arg : AttachArg) : List ℕ :=
  match arg with
  | AttachArg.noneArg => observers
  | AttachArg.single o => attachAll observers [o]
  | AttachArg.many os => attachAll observers os

/-- ObserverSubject.detach (fl_bench/__init__.py lines 60-64):
list.remove drops the first occurrence; the ValueError raised when the
observer is absent is caught and ignored, leaving the list unchanged. -/
def detach (observers : List ℕ) (o : ℕ) : List ℕ :=
  observers.erase o

/-- An attached observer as the core sees it: one callback per event
kind, each of which can raise (modeled as Except).  Only the two events
the claims exercise are carried; the remaining notify loops in the
source are syntactically identical. -/
structure FLObserver where
  start_round : ℕ → StateDict → Except Err Unit
  message_received : Message → Except Err Unit

/-- Server.notify_start_round (server.py lines 194-202): call
start_round on every attached observer in order, with no exception
handling around the calls. -/
def notify_start_round (observers : List FLObserver) (round : ℕ)
    (global_model : StateDict) : Except Err Unit :=
  observers.foldlM (fun _ o => o.start_round round global_model) ()

/-- Channel.notify_message_received (channel.py lines 103-110): call
message_received on every attached observer in order, with no exception
handling around the calls. -/
def notify_message_received (observers : List FLObserver) (m : Message) :
    Except Err Unit :=
  observers.foldlM (fun _ o => o.message_received m) ()

/-- Modelled from the spec: the Client state the orchestration core
reads (src/fl_bench/client.py is not part of the sources).  Spec section
3 gives a client an identity, an exclusively owned local model replaced
wholesale on each round, and an optional local evaluation; the model
field holds the payload last adopted from the channel and evalResult
holds the metrics of the held-out split, none standing for the
no-metrics indicator of spec section 4.3. -/
structure Client where
  id : ℕ
  model : Option Payload
  evalResult : Option ℕ
deriving DecidableEq, Repr

/-- Modelled from the spec: Client.validate as called by
Server.finalize (client.py is missing from the sources).  Spec section
4.3: if the client has a held-out local evaluation split, compute and
return metrics; return a no-metrics indicator otherwise. -/
def validate (c : Client) : Option ℕ :=
  c.evalResult

/-- Modelled from the spec: Client._receive_model as called by
Server.finalize (client.py is missing from the sources).  Spec section
4.3 receive_global: pull the model message sent by the server from the
client mailbox through the channel and adopt its payload wholesale as
the local model state. -/
def client_receive_model (srvId : ℕ) (ch : Channel) (c : Client) :
    Except Err (Client × Channel) := do
  let r ← receive ch c.id (some srvId) (some "model")
  pure ({ c with model := some r.1.payload }, r.2)

/-- Server._broadcast_model (server.py lines 69-70): broadcast one
model-typed message carrying the global model, with the server as
sender, to the given receivers. -/
def broadcast_model (ch : Channel) (srvId : ℕ) (model : StateDict)
    (tos : List ℕ) : Except Err Channel :=
  broadcast ch ⟨Payload.modelP model, "model", some srvId⟩ tos

/-- One iteration of the adoption loop of Server.finalize (server.py
lines 116-117): make one client pull the broadcast model from the
channel and append the updated client to the processed list. -/
def finalize_step (srvId : ℕ) (acc : List Client × Channel) (c : Client) :
    Except Err (List Client × Channel) := do
  let r ← client_receive_model srvId acc.2 c
  pure (acc.1 ++ [r.1], r.2)

/-- Server.finalize (server.py lines 109-119): broadcast the global
model to the full roster, make every roster client pull and adopt it,
collect validate from every roster client, and compute the argument
passed to notify_finalize, which is the eval list when the first entry
is truthy and Python None otherwise; indexing client_evals at zero on an
empty roster raises IndexError.  Returns the updated clients, the
channel and the notified argument. -/
def finalize (srvId : ℕ) (model : StateDict) (clients : List Client)
    (ch : Channel) :
    Except Err (List Client × Channel × Option (List (Option ℕ))) := do
  let ch1 ← broadcast_model ch srvId model (clients.map Client.id)
  let st ← clients.foldlM (finalize_step srvId) (([] : List Client), ch1)
  let client_evals := st.1.map validate
  match client_evals with
  | [] => Except.error Err.indexError
  | e0 :: _ =>
      pure (st.1, st.2, if e0.isSome then some client_evals else none)

/-- Looking a key up after bufferSet: the written key maps to the new
messages and every other key reads as before. -/
lemma lookup_bufferSet (b : List (ℕ × List Message)) (m j : ℕ)
    (msgs : List Message) :
    (bufferSet b m msgs).lookup j = if j = m then some msgs else b.lookup j := by
  induction b with
  | nil =>
      by_cases hjm : j = m
      · simp [bufferSet, List.lookup, hjm]
      · have hb : (j == m) = false := by simpa using hjm
        simp [bufferSet, List.lookup, hb, hjm]
  | cons kv rest ih =>
      obtain ⟨k, v⟩ := kv
      by_cases hk : k = m
      · subst hk
        by_cases hjm : j = k
        · simp [bufferSet, List.lookup, hjm]
        · have hb : (j == k) = false := by simpa using hjm
          simp [bufferSet, List.lookup, hb, hjm]
      · simp only [bufferSet, if_neg hk]
        by_cases hjk : j = k
        · subst hjk
          have hjm : j ≠ m := hk
          simp [List.lookup, hjm]
        · have hb : (j == k) = false := by simpa using hjk
          simp [List.lookup, hb, ih]

/-- Reading a mailbox after writing one: the written mailbox holds the
new messages and every other mailbox is unchanged. -/
lemma bufferGet_bufferSet (b : List (ℕ × List Message)) (m j : ℕ)
    (msgs : List Message) :
    bufferGet (bufferSet b m msgs) j = if j = m then msgs else bufferGet b j := by
  rw [bufferGet, lookup_bufferSet]
  split <;> rfl

/-- A scan over messages none of which matches the filters finds
nothing. -/
lemma scanPop_eq_none (msgs : List Message) (s : Option ℕ) (mt : Option String)
    (h : ∀ x ∈ msgs, matchMsg x s mt = false) :
    scanPop msgs s mt = none := by
  induction msgs with
  | nil => rfl
  | cons m rest ih =>
      have hm : matchMsg m s mt = false := h m (List.mem_cons_self m rest)
      have hrest : ∀ x ∈ rest, matchMsg x s mt = false :=
        fun x hx => h x (List.mem_cons_of_mem m hx)
      simp [scanPop, hm, ih hrest]

/-- Scanning a mailbox whose only matching message is the one appended
last pops exactly that message and restores the previous mailbox. -/
lemma scanPop_append_last (msgs : List Message) (m : Message) (s : Option ℕ)
    (mt : Option String) (h : ∀ x ∈ msgs, matchMsg x s mt = false)
    (hm : matchMsg m s mt = true) :
    scanPop (msgs ++ [m]) s mt = some (m, msgs) := by
  induction msgs with
  | nil => simp [scanPop, hm]
  | cons x rest ih =>
      have hx : matchMsg x s mt = false := h x (List.mem_cons_self x rest)
      have hrest : ∀ y ∈ rest, matchMsg y s mt = false :=
        fun y hy => h y (List.mem_cons_of_mem x hy)
      simp [scanPop, hx, ih hrest]

/-- A message always matches the filters built from its own sender and
type. -/
lemma matchMsg_self (m : Message) :
    matchMsg m m.sender (some m.msg_type) = true := by
  cases h : m.sender <;> simp [matchMsg, h]

/-- Receive with a type filter given always takes the scanning branch of
the source, whatever the sender filter is. -/
lemma receive_some_type (ch : Channel) (mbox : ℕ) (s : Option ℕ) (t : String) :
    receive ch mbox s (some t) =
      match scanPop (bufferGet ch.buffer mbox) s (some t) with
      | some (m, rest) =>
          Except.ok (m, { ch with buffer := bufferSet ch.buffer mbox rest })
      | none => Except.error Err.messageNotFound := by
  cases s <;> rfl

/-- Sending a non-action message appends it to the receiver mailbox and
cannot fail. -/
lemma send_nonaction (ch : Channel) (m : Message) (r : ℕ)
    (hm : m.msg_type ≠ "__action__") :
    send ch m r =
      Except.ok { ch with buffer := bufferSet ch.buffer r (bufferGet ch.buffer r ++ [m]) } := by
  simp [send, hm]

/-- Broadcasting a non-action message succeeds, performs no action, and
appends one copy of the message to each receiver mailbox per occurrence
of that receiver in the list. -/
lemma broadcast_nonaction (m : Message) (hm : m.msg_type ≠ "__action__") :
    ∀ (tos : List ℕ) (ch : Channel), ∃ ch2, broadcast ch m tos = Except.ok ch2 ∧
      ch2.actions = ch.actions ∧
      ∀ j, bufferGet ch2.buffer j =
        bufferGet ch.buffer j ++ List.replicate (tos.count j) m := by
  intro tos
  induction tos with
  | nil =>
      intro ch
      exact ⟨ch, rfl, rfl, fun j => by simp⟩
  | cons t ts ih =>
      intro ch
      obtain ⟨ch2, hb, hact, hbuf⟩ :=
        ih { ch with buffer := bufferSet ch.buffer t (bufferGet ch.buffer t ++ [m]) }
      refine ⟨ch2, ?_, by simpa using hact, ?_⟩
      · rw [broadcast, List.foldlM_cons, send_nonaction ch m t hm]
        simpa [broadcast] using hb
      · intro j
        rw [hbuf j, bufferGet_bufferSet]
        by_cases hjt : j = t
        · subst hjt
          simp [List.count_cons, List.replicate_succ, List.append_assoc]
        · simp [hjt, List.count_cons]

/-- Binding an ok value in the Except monad applies the continuation. -/
lemma ok_bind {α β : Type} (a : α) (f : α → Except Err β) :
    (Except.ok a >>= f) = f a := rfl

/-- Receiving from a mailbox holding exactly the broadcast model message
pops that message and empties the mailbox. -/
lemma client_receive_model_singleton (srvId : ℕ) (pl : Payload) (ch : Channel)
    (c : Client)
    (hbuf : bufferGet ch.buffer c.id = [⟨pl, "model", some srvId⟩]) :
    client_receive_model srvId ch c =
      Except.ok ({ c with model := some pl },
                 { ch with buffer := bufferSet ch.buffer c.id [] }) := by
  have hscan : scanPop (bufferGet ch.buffer c.id) (some srvId) (some "model")
      = some (⟨pl, "model", some srvId⟩, []) := by
    rw [hbuf]
    simp [scanPop, matchMsg]
  rw [client_receive_model, receive_some_type, hscan]
  rfl

/-- The adoption loop of Server.finalize: when every listed client
mailbox holds exactly the broadcast model message and client ids are
pairwise distinct, the loop succeeds and appends each client with the
payload adopted as its model, in order. -/
lemma finalize_loop (srvId : ℕ) (pl : Payload) :
    ∀ (clients : List Client) (ch : Channel) (acc : List Client),
      (clients.map Client.id).Nodup →
      (∀ c ∈ clients, bufferGet ch.buffer c.id = [⟨pl, "model", some srvId⟩]) →
      ∃ ch2, clients.foldlM (finalize_step srvId) (acc, ch) =
        Except.ok (acc ++ clients.map (fun c => { c with model := some pl }), ch2) := by
  intro clients
  induction clients with
  | nil =>
      intro ch acc _ _
      refine ⟨ch, ?_⟩
      simp only [List.foldlM_nil, List.map_nil, List.append_nil]
      rfl
  | cons c rest ih =>
      intro ch acc hnd hbuf
      have hstep := client_receive_model_singleton srvId pl ch c
        (hbuf c (List.mem_cons_self c rest))
      have hnd2 : (rest.map Client.id).Nodup := (List.nodup_cons.mp hnd).2
      have hne : c.id ∉ rest.map Client.id := (List.nodup_cons.mp hnd).1
      have hbuf2 : ∀ x ∈ rest,
          bufferGet (bufferSet ch.buffer c.id []) x.id = [⟨pl, "model", some srvId⟩] := by
        intro x hx
        have hxid : x.id ≠ c.id := by
          intro hcontra
          exact hne (hcontra ▸ List.mem_map_of_mem Client.id hx)
        rw [bufferGet_bufferSet, if_neg hxid]
        exact hbuf x (List.mem_cons_of_mem c hx)
      obtain ⟨ch2, hrest⟩ :=
        ih { ch with buffer := bufferSet ch.buffer c.id [] }
           (acc ++ [{ c with model := some pl }]) hnd2 hbuf2
      have hstep2 : finalize_step srvId (acc, ch) c =
          Except.ok (acc ++ [{ c with model := some pl }],
                     { ch with buffer := bufferSet ch.buffer c.id [] }) := by
        rw [finalize_step]
        rw [show client_receive_model srvId (acc, ch).2 c
              = client_receive_model srvId ch c from rfl, hstep, ok_bind]
        rfl
      refine ⟨ch2, ?_⟩
      rw [List.foldlM_cons, hstep2, ok_bind, hrest]
      simp

/-- The sum of a list all of whose elements equal n is the length times
n. -/
lemma sum_of_all_eq {ns : List ℕ} {n : ℕ} (h : ∀ x ∈ ns, x = n) :
    ns.sum = ns.length * n := by
  induction ns with
  | nil => simp
  | cons a l ih =>
      have ha : a = n := h a (List.mem_cons_self a l)
      have hl := ih (fun x hx => h x (List.mem_cons_of_mem a hx))
      simp [ha, hl, Nat.succ_mul, Nat.add_comm]

/-- Mapping over a list all of whose elements equal n yields a constant
list. -/
lemma map_of_all_eq {α β : Type} (f : α → β) {ns : List α} {n : α}
    (h : ∀ x ∈ ns, x = n) :
    ns.map f = List.replicate ns.length (f n) := by
  induction ns with
  | nil => simp
  | cons a l ih =>
      have ha : a = n := h a (List.mem_cons_self a l)
      have hl := ih (fun x hx => h x (List.mem_cons_of_mem a hx))
      simp [ha, hl, List.replicate_succ]

/-- When every eligible client has the same positive example count, the
weighted client weights coincide with the uniform ones. -/
lemma get_client_weights_eq (ns : List ℕ) (n : ℕ) (hne : ns ≠ [])
    (hall : ∀ x ∈ ns, x = n) (hn : 0 < n) :
    get_client_weights ns true = get_client_weights ns false := by
  have hlen : ns.length ≠ 0 := by
    simpa using List.length_pos.mpr hne |>.ne'
  have hsum : ns.sum = ns.length * n := sum_of_all_eq hall
  have htot : ns.sum ≠ 0 := by
    rw [hsum]
    exact Nat.mul_ne_zero hlen hn.ne'
  have hcast : ((ns.sum : ℕ) : ℚ) = (ns.length : ℚ) * (n : ℚ) := by
    rw [hsum]
    push_cast
    ring
  have hnq : (n : ℚ) ≠ 0 := Nat.cast_ne_zero.mpr hn.ne'
  have hval : (n : ℚ) / (ns.sum : ℚ) = 1 / (ns.length : ℚ) := by
    rw [hcast, mul_comm, div_mul_eq_div_div, div_self hnq]
  have hmap := map_of_all_eq (fun k : ℕ => (k : ℚ) / (ns.sum : ℚ)) hall
  calc get_client_weights ns true
      = Except.ok (ns.map (fun k : ℕ => (k : ℚ) / (ns.sum : ℚ))) := by
        unfold get_client_weights
        rw [if_pos rfl, if_neg htot]
    _ = Except.ok (List.replicate ns.length ((n : ℚ) / (ns.sum : ℚ))) := by
        rw [hmap]
    _ = Except.ok (List.replicate ns.length (1 / (ns.length : ℚ))) := by
        rw [hval]
    _ = get_client_weights ns false := by
        unfold get_client_weights
        rw [if_neg Bool.false_ne_true, if_neg hlen]

/-- npRandomChoice returns exactly n draws. -/
lemma npRandomChoice_length {α : Type} (roster : List α) (dflt : α) :
    ∀ (n : ℕ) (r : Rng), (npRandomChoice roster dflt n r).1.length = n := by
  intro n
  induction n with
  | zero => intro r; rfl
  | succ m ih =>
      intro r
      simp [npRandomChoice, ih]

/-- An in-range default read of a list is one of its elements. -/
lemma getD_mem_of_lt {α : Type} (l : List α) (d : α) (i : ℕ)
    (h : i < l.length) : l.getD i d ∈ l := by
  rw [List.getD_eq_getElem l d h]
  exact List.getElem_mem h

/-- Every element drawn by npRandomChoice from a non-empty roster
belongs to the roster. -/
lemma npRandomChoice_mem {α : Type} (roster : List α) (dflt : α)
    (hne : roster ≠ []) :
    ∀ (n : ℕ) (r : Rng) (x : α),
      x ∈ (npRandomChoice roster dflt n r).1 → x ∈ roster := by
  intro n
  induction n with
  | zero =>
      intro r x hx
      simp [npRandomChoice] at hx
  | succ m ih =>
      intro r x hx
      have hlen : 0 < roster.length := List.length_pos.mpr hne
      rw [npRandomChoice] at hx
      rcases List.mem_cons.mp hx with hh | ht
      · subst hh
        exact getD_mem_of_lt roster dflt _ (Nat.mod_lt _ hlen)
      · exact ih _ x ht

/-- With at least one filter given, receive takes the scanning branch of
the source. -/
lemma receive_scan (ch : Channel) (r : ℕ) (sender : Option ℕ) (mt : Option String)
    (h : ¬ (sender = none ∧ mt = none)) :
    receive ch r sender mt =
      match scanPop (bufferGet ch.buffer r) sender mt with
      | some (m, rest) =>
          Except.ok (m, { ch with buffer := bufferSet ch.buffer r rest })
      | none => Except.error Err.messageNotFound := by
  cases sender <;> cases mt
  · exact absurd ⟨rfl, rfl⟩ h
  · rfl
  · rfl
  · rfl

/-- With both filters omitted, receive pops the most recently appended
message of the mailbox. -/
lemma receive_none_none (ch : Channel) (r : ℕ) :
    receive ch r none none =
      match (bufferGet ch.buffer r).getLast? with
      | none => Except.error Err.indexError
      | some m =>
          Except.ok (m, { ch with buffer := bufferSet ch.buffer r (bufferGet ch.buffer r).dropLast }) := rfl

/-- Claim C1: the claim states that Server.aggregate preserves the key
set of the global model, keys containing num_batches_tracked included.
On the code this fails: aggregate skips such keys without writing any
entry for them (the carry-over from the first client is commented out at
server.py line 185), so the averaged dict lacks the key and the strict
torch load_state_dict call fails with a RuntimeError on any model
holding such a key.  This theorem evaluates the embedded aggregate at a
concrete failing input: a two-key global model with one
num_batches_tracked key and a single client holding the same keys.  The
built dict retains only the ordinary key and the whole aggregation
errors instead of completing with the key set preserved. -/
theorem C1_aggregate_drops_counter_key :
    aggregate [("layer.weight", (1 : ℚ)), ("bn.num_batches_tracked", 7)]
        [[("layer.weight", 2), ("bn.num_batches_tracked", 9)]] [5] false
      = Except.error Err.runtimeError
    ∧ Except.map sdKeys
        (buildAvgModel ["layer.weight", "bn.num_batches_tracked"]
          [[("layer.weight", 2), ("bn.num_batches_tracked", 9)]] [1])
      = Except.ok ["layer.weight"] := by
  exact ⟨rfl, rfl⟩

/-- Claim C2, counterexample: the claim states that with eligibility
fraction strictly between zero and one the eligible clients are pairwise
distinct (drawn without replacement).  The source calls
numpy random.choice without replace set to False, which draws with
replacement: on a four-client roster with fraction one half and a
generator stream that always yields zero, the same client is returned
twice. -/
theorem C2_sampling_with_replacement_cex :
    (get_eligible_clients [10, 11, 12, 13] 0 (mkRat 1 2) ⟨fun _ => 0, 0⟩).1 = [10, 10]
    ∧ ¬ ((get_eligible_clients [10, 11, 12, 13] 0 (mkRat 1 2) ⟨fun _ => 0, 0⟩).1.Nodup) := by
  have h2 : (mkRat 1 2 : ℚ) = 1 / 2 := by
    rw [Rat.mkRat_eq_divInt, Rat.divInt_eq_div]
    norm_num
  have hn : (Rat.floor ((([10, 11, 12, 13] : List ℕ).length : ℚ) * mkRat 1 2)).toNat = 2 := by
    rw [h2]
    have h3 : ((([10, 11, 12, 13] : List ℕ).length : ℚ) * (1 / 2)) = 2 := by norm_num
    rw [h3]
    have h4 : Rat.floor (2 : ℚ) = 2 := by
      rw [Rat.floor_def']
      norm_num
    rw [h4]
    rfl
  have hne : (mkRat 1 2 : ℚ) ≠ 1 := by
    rw [h2]
    norm_num
  have hres : (get_eligible_clients [10, 11, 12, 13] 0 (mkRat 1 2) ⟨fun _ => 0, 0⟩).1
      = [10, 10] := by
    unfold get_eligible_clients
    rw [if_neg hne, hn]
    rfl
  refine ⟨hres, ?_⟩
  rw [hres]
  decide

/-- Claim C2, amended: with eligibility fraction strictly between zero
and one, get_eligible_clients returns a list of length the floor of the
roster size times the fraction, every element of which belongs to the
roster; the draws are made with replacement, so elements may repeat. -/
theorem C2_eligible_size_and_membership (clients : List ℕ) (dflt : ℕ)
    (perc : ℚ) (rng : Rng) (hne : clients ≠ []) (h0 : 0 < perc) (h1 : perc < 1) :
    (get_eligible_clients clients dflt perc rng).1.length
        = (Rat.floor ((clients.length : ℚ) * perc)).toNat
    ∧ ∀ x ∈ (get_eligible_clients clients dflt perc rng).1, x ∈ clients := by
  have hp1 : perc ≠ 1 := ne_of_lt h1
  unfold get_eligible_clients
  rw [if_neg hp1]
  exact ⟨npRandomChoice_length _ _ _ _,
         fun x hx => npRandomChoice_mem _ _ hne _ _ x hx⟩

/-- Claim C2, witness for the amended theorem at a concrete roster,
fraction and generator. -/
theorem C2_eligible_size_and_membership_witness :
    ([1, 2, 3] : List ℕ) ≠ [] ∧ (0 : ℚ) < mkRat 1 2 ∧ mkRat 1 2 < 1
    ∧ ((get_eligible_clients [1, 2, 3] 0 (mkRat 1 2) ⟨fun i => i, 0⟩).1.length
          = (Rat.floor ((([1, 2, 3] : List ℕ).length : ℚ) * (mkRat 1 2))).toNat
       ∧ ∀ x ∈ (get_eligible_clients [1, 2, 3] 0 (mkRat 1 2) ⟨fun i => i, 0⟩).1,
           x ∈ [1, 2, 3]) :=
  ⟨by decide, by decide, by decide,
   C2_eligible_size_and_membership [1, 2, 3] 0 (mkRat 1 2) ⟨fun i => i, 0⟩
     (by decide) (by decide) (by decide)⟩

/-- Claim C3, counterexample: the claim states that after sending a
non-action message m, a receive filtered on the sender and type of m
returns exactly m, for every mailbox state.  When an earlier buffered
message already matches the same filters, receive pops that earlier
message instead of m: mailbox 7 already holds a model message from
sender 3, a second distinct model message from sender 3 is sent, and the
receive returns the earlier one. -/
theorem C3_receive_returns_earlier_match_cex :
    Except.map (fun p => p.1)
        ((send ⟨[(7, [⟨Payload.obj 1, "model", some 3⟩])], []⟩
            ⟨Payload.obj 2, "model", some 3⟩ 7).bind
          (fun ch2 => receive ch2 7 (some 3) (some "model")))
      = Except.ok ⟨Payload.obj 1, "model", some 3⟩
    ∧ (⟨Payload.obj 1, "model", some 3⟩ : Message)
        ≠ ⟨Payload.obj 2, "model", some 3⟩ := by
  constructor
  · rfl
  · decide

/-- Claim C3, amended: after sending a non-action message m to receiver
r, provided no message already buffered for r matches the sender and
type of m, the filtered receive returns exactly m and restores the
mailbox of r to its content before the send, and a second receive with
the same filters on the resulting channel fails with the protocol
error: each buffered entry is consumed by at most one receive. -/
theorem C3_send_receive_roundtrip (ch ch1 : Channel) (m : Message) (r : ℕ)
    (hact : m.msg_type ≠ "__action__")
    (hsend : send ch m r = Except.ok ch1)
    (hnomatch : ∀ x ∈ bufferGet ch.buffer r,
      matchMsg x m.sender (some m.msg_type) = false) :
    ∃ ch2, receive ch1 r m.sender (some m.msg_type) = Except.ok (m, ch2)
      ∧ bufferGet ch2.buffer r = bufferGet ch.buffer r
      ∧ receive ch2 r m.sender (some m.msg_type)
          = Except.error Err.messageNotFound := by
  rw [send_nonaction ch m r hact] at hsend
  injection hsend with hch1
  subst hch1
  refine ⟨{ ch with buffer := bufferSet (bufferSet ch.buffer r (bufferGet ch.buffer r ++ [m])) r (bufferGet ch.buffer r) }, ?_, ?_, ?_⟩
  · rw [receive_some_type]
    rw [show bufferGet (bufferSet ch.buffer r (bufferGet ch.buffer r ++ [m])) r
          = bufferGet ch.buffer r ++ [m] from by rw [bufferGet_bufferSet]; simp]
    rw [scanPop_append_last _ _ _ _ hnomatch (matchMsg_self m)]
  · show bufferGet (bufferSet (bufferSet ch.buffer r (bufferGet ch.buffer r ++ [m])) r
        (bufferGet ch.buffer r)) r = bufferGet ch.buffer r
    rw [bufferGet_bufferSet]
    simp
  · rw [receive_some_type]
    rw [show bufferGet (bufferSet (bufferSet ch.buffer r (bufferGet ch.buffer r ++ [m])) r
          (bufferGet ch.buffer r)) r = bufferGet ch.buffer r from by
        rw [bufferGet_bufferSet]; simp]
    rw [scanPop_eq_none _ _ _ hnomatch]

/-- Claim C3, witness for the amended theorem: a fresh channel, one send
and the two receives at concrete values. -/
theorem C3_send_receive_roundtrip_witness :
    (⟨Payload.obj 2, "model", some 3⟩ : Message).msg_type ≠ "__action__"
    ∧ send emptyChannel ⟨Payload.obj 2, "model", some 3⟩ 7
        = Except.ok ⟨[(7, [⟨Payload.obj 2, "model", some 3⟩])], []⟩
    ∧ (∀ x ∈ bufferGet emptyChannel.buffer 7,
        matchMsg x (some 3) (some "model") = false)
    ∧ (∃ ch2, receive ⟨[(7, [⟨Payload.obj 2, "model", some 3⟩])], []⟩ 7
          (some 3) (some "model")
          = Except.ok (⟨Payload.obj 2, "model", some 3⟩, ch2)
        ∧ bufferGet ch2.buffer 7 = bufferGet emptyChannel.buffer 7
        ∧ receive ch2 7 (some 3) (some "model")
            = Except.error Err.messageNotFound) :=
  ⟨by decide, rfl, by decide,
   C3_send_receive_roundtrip emptyChannel
     ⟨[(7, [⟨Payload.obj 2, "model", some 3⟩])], []⟩
     ⟨Payload.obj 2, "model", some 3⟩ 7
     (by decide) rfl (by decide)⟩

/-- Claim C4, counterexample: the claim states that every receive that
finds no matching buffered message raises the message-not-found protocol
error, the case of both filters omitted on an empty mailbox included.
In that case the source instead calls list.pop on the empty mailbox,
which raises IndexError, a different exception from the descriptive
ValueError of the scanning branch. -/
theorem C4_empty_pop_not_value_error_cex :
    receive emptyChannel 0 none none = Except.error Err.indexError
    ∧ receive emptyChannel 0 none none ≠ Except.error Err.messageNotFound := by
  constructor
  · rfl
  · intro h
    rw [show receive emptyChannel 0 none none = Except.error Err.indexError from rfl] at h
    exact Err.noConfusion (Except.error.inj h)

/-- Claim C4, amended: a receive with at least one filter given and no
matching buffered message fails with the message-not-found ValueError,
and a receive with both filters omitted on an empty mailbox fails with
an IndexError from popping the empty list; both errors propagate to the
caller, nothing is swallowed. -/
theorem C4_no_match_raises (ch : Channel) (r : ℕ) (sender : Option ℕ)
    (mt : Option String) :
    (¬ (sender = none ∧ mt = none) →
      (∀ x ∈ bufferGet ch.buffer r, matchMsg x sender mt = false) →
      receive ch r sender mt = Except.error Err.messageNotFound)
    ∧ (bufferGet ch.buffer r = [] →
      receive ch r none none = Except.error Err.indexError) := by
  constructor
  · intro hfilters hnomatch
    rw [receive_scan ch r sender mt hfilters, scanPop_eq_none _ _ _ hnomatch]
  · intro hemp
    rw [receive_none_none, hemp]
    rfl

/-- Claim C4, witness for the amended theorem on a fresh channel with a
sender filter given and with both filters omitted. -/
theorem C4_no_match_raises_witness :
    (¬ ((some 1 : Option ℕ) = none ∧ (none : Option String) = none))
    ∧ (∀ x ∈ bufferGet emptyChannel.buffer 0, matchMsg x (some 1) none = false)
    ∧ bufferGet emptyChannel.buffer 0 = []
    ∧ receive emptyChannel 0 (some 1) none = Except.error Err.messageNotFound
    ∧ receive emptyChannel 0 none none = Except.error Err.indexError :=
  ⟨by decide, by decide, by decide,
   (C4_no_match_raises emptyChannel 0 (some 1) none).1 (by decide) (by decide),
   (C4_no_match_raises emptyChannel 0 (some 1) none).2 (by decide)⟩

/-- Claim C5, counterexample: the claim states that an exception raised
by an attached observer never propagates back into the core.  The
notify loops of the source have no exception handling, so a single
failing observer makes the notification return its error: here both the
server start_round notification and the channel message_received
notification propagate the observer error instead of completing. -/
theorem C5_observer_exception_propagates_cex :
    notify_start_round
        [⟨fun _ _ => Except.error Err.observerError,
          fun _ => Except.error Err.observerError⟩] 1 []
      = Except.error Err.observerError
    ∧ notify_message_received
        [⟨fun _ _ => Except.error Err.observerError,
          fun _ => Except.error Err.observerError⟩]
        ⟨Payload.obj 0, "model", none⟩
      = Except.error Err.observerError :=
  ⟨rfl, rfl⟩

/-- Claim C5, amended: an exception raised by an attached observer
propagates out of the notify call: when every observer before it
succeeds and one observer fails, the notification aborts with exactly
that error, and the observers after it are never reached. -/
theorem C5_observer_exception_propagates (pre post : List FLObserver)
    (bad : FLObserver) (r : ℕ) (sd : StateDict) (e : Err)
    (hpre : ∀ o ∈ pre, o.start_round r sd = Except.ok ())
    (hbad : bad.start_round r sd = Except.error e) :
    notify_start_round (pre ++ bad :: post) r sd = Except.error e := by
  induction pre with
  | nil =>
      rw [List.nil_append, notify_start_round, List.foldlM_cons, hbad]
      rfl
  | cons o pre2 ih =>
      have ho : o.start_round r sd = Except.ok () :=
        hpre o (List.mem_cons_self o pre2)
      have hpre2 : ∀ x ∈ pre2, x.start_round r sd = Except.ok () :=
        fun x hx => hpre x (List.mem_cons_of_mem o hx)
      rw [List.cons_append, notify_start_round, List.foldlM_cons, ho, ok_bind]
      exact ih hpre2

/-- Claim C5, witness for the amended theorem with an empty prefix, one
failing observer and an observer after it. -/
theorem C5_observer_exception_propagates_witness :
    (∀ o ∈ ([] : List FLObserver), o.start_round 1 [] = Except.ok ())
    ∧ (FLObserver.mk (fun _ _ => Except.error Err.observerError)
        (fun _ => Except.ok ())).start_round 1 [] = Except.error Err.observerError
    ∧ notify_start_round
        ([] ++ FLObserver.mk (fun _ _ => Except.error Err.observerError)
            (fun _ => Except.ok ())
          :: [FLObserver.mk (fun _ _ => Except.ok ()) (fun _ => Except.ok ())]) 1 []
      = Except.error Err.observerError :=
  ⟨fun o ho => absurd ho (List.not_mem_nil o), rfl,
   C5_observer_exception_propagates []
     [FLObserver.mk (fun _ _ => Except.ok ()) (fun _ => Except.ok ())]
     (FLObserver.mk (fun _ _ => Except.error Err.observerError)
       (fun _ => Except.ok ()))
     1 [] Err.observerError (fun o ho => absurd ho (List.not_mem_nil o)) rfl⟩

/-- Claim C6: sending an action-typed message whose payload carries an
operation and keyword arguments invokes the operation synchronously
during the send (recorded as one new entry on the action trace) and
leaves every mailbox buffer unchanged: nothing is appended for any
receiver. -/
theorem C6_action_send_invokes_and_leaves_buffer (ch : Channel) (m : Message)
    (mbox : ℕ) (op : String) (kwargs : List (String × ℕ))
    (h1 : m.msg_type = "__action__") (h2 : m.payload = Payload.action op kwargs) :
    ∃ ch2, send ch m mbox = Except.ok ch2
      ∧ ch2.buffer = ch.buffer
      ∧ ch2.actions = ch.actions ++ [(mbox, op, kwargs)] := by
  refine ⟨{ ch with actions := ch.actions ++ [(mbox, op, kwargs)] }, ?_, rfl, rfl⟩
  unfold send
  rw [if_pos h1, h2]

/-- Claim C6, witness at a concrete action message on a fresh
channel. -/
theorem C6_action_send_invokes_and_leaves_buffer_witness :
    (⟨Payload.action "local_train" [], "__action__", some 0⟩ : Message).msg_type
        = "__action__"
    ∧ (⟨Payload.action "local_train" [], "__action__", some 0⟩ : Message).payload
        = Payload.action "local_train" []
    ∧ (∃ ch2, send emptyChannel
          ⟨Payload.action "local_train" [], "__action__", some 0⟩ 3
          = Except.ok ch2
        ∧ ch2.buffer = emptyChannel.buffer
        ∧ ch2.actions = emptyChannel.actions ++ [(3, "local_train", [])]) :=
  ⟨rfl, rfl,
   C6_action_send_invokes_and_leaves_buffer emptyChannel
     ⟨Payload.action "local_train" [], "__action__", some 0⟩ 3 "local_train" []
     rfl rfl⟩

/-- Claim C7, counterexample: the claim quantifies over every common
example count.  With every eligible client holding zero examples the
weighted path divides each count by the zero total and raises
ZeroDivisionError, while the unweighted path succeeds, so the two runs
do not produce the same result. -/
theorem C7_zero_count_cex :
    aggregate [("w", (0 : ℚ))] [[("w", 1)]] [0] true
      ≠ aggregate [("w", (0 : ℚ))] [[("w", 1)]] [0] false := by
  intro h
  have h1 : aggregate [("w", (0 : ℚ))] [[("w", 1)]] [0] true
      = Except.error Err.zeroDivisionError := rfl
  have h2 : (aggregate [("w", (0 : ℚ))] [[("w", 1)]] [0] false).isOk = true := rfl
  rw [← h, h1] at h2
  exact Bool.noConfusion h2

/-- Claim C7, amended: when the eligible client set is non-empty and
every eligible client has the same positive example count, aggregation
with the weighted hyperparameter set produces exactly the same resulting
global model state as unweighted aggregation on the same client models,
each weight being one over the number of eligible clients in both
cases. -/
theorem C7_equal_counts_weighted_eq_unweighted (model : StateDict)
    (clients_sd : List StateDict) (ns : List ℕ) (n : ℕ)
    (hne : ns ≠ []) (hall : ∀ x ∈ ns, x = n) (hn : 0 < n) :
    aggregate model clients_sd ns true = aggregate model clients_sd ns false := by
  unfold aggregate
  rw [get_client_weights_eq ns n hne hall hn]

/-- Claim C7, witness: two clients with two examples each on a one-key
model. -/
theorem C7_equal_counts_weighted_eq_unweighted_witness :
    ([2, 2] : List ℕ) ≠ [] ∧ (∀ x ∈ ([2, 2] : List ℕ), x = 2) ∧ 0 < 2
    ∧ aggregate [("w", (0 : ℚ))] [[("w", 1)], [("w", 3)]] [2, 2] true
        = aggregate [("w", (0 : ℚ))] [[("w", 1)], [("w", 3)]] [2, 2] false :=
  ⟨by decide, by decide, by decide,
   C7_equal_counts_weighted_eq_unweighted [("w", (0 : ℚ))]
     [[("w", 1)], [("w", 3)]] [2, 2] 2 (by decide) (by decide) (by decide)⟩

/-- Claim C8, counterexample: the claim states that finalize notifies
the finished observers with the evaluations collected from every roster
client.  The source passes the eval list only when the first entry is
truthy: with a first client returning no metrics and a second client
returning metrics, the collected evaluations exist but the finished
notification receives Python None instead, dropping the second client
evaluation. -/
theorem C8_finalize_drops_evals_cex :
    Except.map (fun t => t.2.2)
        (finalize 100 [("w", (1 : ℚ))] [⟨1, none, none⟩, ⟨2, none, some 5⟩]
          emptyChannel)
      = Except.ok none
    ∧ Except.map (fun t => t.1.map validate)
        (finalize 100 [("w", (1 : ℚ))] [⟨1, none, none⟩, ⟨2, none, some 5⟩]
          emptyChannel)
      = Except.ok [none, some 5] :=
  ⟨rfl, rfl⟩

/-- Claim C8, amended: on a non-empty roster of clients with pairwise
distinct identities and no stale model message pending in their
mailboxes, finalize broadcasts the final global model to every roster
client regardless of earlier eligible subsets, makes every roster client
adopt it, collects one evaluation per roster client, and notifies the
finished observers with the list of those evaluations when the first
client evaluation is truthy, and with Python None otherwise. -/
theorem C8_finalize_broadcasts_and_collects (srvId : ℕ) (model : StateDict)
    (c0 : Client) (rest : List Client) (ch : Channel)
    (hids : ((c0 :: rest).map Client.id).Nodup)
    (hempty : ∀ c ∈ c0 :: rest, bufferGet ch.buffer c.id = []) :
    ∃ ch2, finalize srvId model (c0 :: rest) ch =
      Except.ok ((c0 :: rest).map
          (fun c => { c with model := some (Payload.modelP model) }),
        ch2,
        if (validate c0).isSome then some ((c0 :: rest).map validate) else none) := by
  obtain ⟨ch1, hbr, hact1, hbuf1⟩ :=
    broadcast_nonaction ⟨Payload.modelP model, "model", some srvId⟩
      (show ("model" : String) ≠ "__action__" by decide)
      ((c0 :: rest).map Client.id) ch
  have hmsg : ∀ c ∈ c0 :: rest,
      bufferGet ch1.buffer c.id = [⟨Payload.modelP model, "model", some srvId⟩] := by
    intro c hc
    rw [hbuf1 c.id, hempty c hc,
        List.count_eq_one_of_mem hids (List.mem_map_of_mem Client.id hc)]
    rfl
  obtain ⟨ch2, hloop⟩ :=
    finalize_loop srvId (Payload.modelP model) (c0 :: rest) ch1 [] hids hmsg
  refine ⟨ch2, ?_⟩
  unfold finalize broadcast_model
  rw [hbr, ok_bind, hloop, ok_bind]
  have hmap : ∀ l : List Client,
      l.map (validate ∘ fun c : Client => { c with model := some (Payload.modelP model) })
        = l.map validate :=
    fun l => List.map_congr_left (fun a _ => rfl)
  simp [validate, hmap, pure, Except.pure]

/-- Claim C8, witness: a one-client roster with an evaluation, a fresh
channel. -/
theorem C8_finalize_broadcasts_and_collects_witness :
    (([⟨1, none, some 4⟩] : List Client).map Client.id).Nodup
    ∧ (∀ c ∈ ([⟨1, none, some 4⟩] : List Client),
        bufferGet emptyChannel.buffer c.id = [])
    ∧ (∃ ch2, finalize 9 [("w", (1 : ℚ))] [⟨1, none, some 4⟩] emptyChannel =
        Except.ok (([⟨1, none, some 4⟩] : List Client).map
            (fun c => { c with model := some (Payload.modelP [("w", (1 : ℚ))]) }),
          ch2,
          if (validate (⟨1, none, some 4⟩ : Client)).isSome
          then some (([⟨1, none, some 4⟩] : List Client).map validate) else none)) :=
  ⟨by decide, by decide,
   C8_finalize_broadcasts_and_collects 9 [("w", (1 : ℚ))] ⟨1, none, some 4⟩ []
     emptyChannel (by decide) (by decide)⟩

/-- Claim C9: get_eligible_clients called with eligibility fraction
equal to one returns the entire roster in its original order and leaves
the random generator state exactly as it was: no randomness is
consumed. -/
theorem C9_full_roster_no_random_draw (clients : List ℕ) (dflt : ℕ) (rng : Rng) :
    get_eligible_clients clients dflt 1 rng = (clients, rng) := by
  unfold get_eligible_clients
  rw [if_pos rfl]

/-- Claim C10: attaching an observer that is already registered leaves
the observer list unchanged, attaching Python None is a no-op, and
detaching an observer that is not registered is a no-op that raises no
error. -/
theorem C10_attach_detach_no_duplicates (obs : List ℕ) (x y : ℕ)
    (hx : x ∈ obs) (hy : y ∉ obs) :
    attach obs (AttachArg.single x) = obs
    ∧ attach obs AttachArg.noneArg = obs
    ∧ detach obs y = obs := by
  refine ⟨?_, rfl, List.erase_of_not_mem hy⟩
  have hc : obs.contains x = true := List.elem_eq_true_of_mem hx
  unfold attach attachAll
  simp [hc, hx]

/-- Claim C10, witness on a concrete observer list. -/
theorem C10_attach_detach_no_duplicates_witness :
    (3 : ℕ) ∈ [3, 4] ∧ (7 : ℕ) ∉ [3, 4]
    ∧ (attach [3, 4] (AttachArg.single 3) = [3, 4]
       ∧ attach [3, 4] AttachArg.noneArg = [3, 4]
       ∧ detach [3, 4] 7 = [3, 4]) :=
  ⟨by decide, by decide, C10_attach_detach_no_duplicates [3, 4] 3 7 (by decide) (by decide)⟩

end FlBench
